import Mathlib

/-!
Shallow embedding of the Curve USDC/crvUSD single-sided withdrawal tool
(`src/curve_withdraw.py`, `src/config.py`).

Python non-negative integers are modelled as `Nat` (Python `//` on
non-negative operands is `Nat` division); values coming straight from the
command line or the environment, which may be negative, are modelled as
`Int`.  Calls to `sys.exit`/`parser.error` are modelled as `Except.error`
carrying the message; remote reads and the chain state are modelled by an
explicit `Chain` record whose function fields stand for the pool and token
contracts.
-/

namespace CurveWithdraw

/-! ### Constants from `src/config.py` -/

def DEFAULT_RPC_URL : String := "http://127.0.0.1:8545"

def POOL_ADDRESS : String := "0x4DEcE678ceceb27446b35C672dC7d61F30bAD69E"

def USDC_ADDRESS : String := "0xA0b86991c6218b36c1d19D4a2e9Eb0cE3606eB48"

/-- `SLIPPAGE_BPS = 99`: used as `expected * SLIPPAGE_BPS // 100`. -/
def SLIPPAGE_BPS : Nat := 99

def MAX_COINS_CHECK : Nat := 4

def MIN_BURN_BPS : Nat := 1

def MAX_BURN_BPS : Nat := 10000

/-! ### Error messages (the `sys.exit` / `parser.error` strings) -/

def missing_address_msg : String :=
  "Missing --impersonated-address (or set $IMPERSONATED_ADDRESS)."

def bps_range_msg : String :=
  "--burn-bps must be between 1 and 10000."

def connect_fail_msg (rpc_url : String) : String :=
  "Failed to connect to RPC at " ++ rpc_url ++ ". Is your local fork running?"

def invalid_addr_msg (addr : String) : String :=
  "Invalid Ethereum address provided: " ++ addr ++ "."

def no_accounts_msg : String :=
  "No local accounts found; ensure your fork tool exposes funded accounts."

def impersonation_err_msg : String :=
  "RPC error during impersonation."

def coins_not_found_msg : String :=
  "Cannot find USDC in pool coins(); expected " ++ USDC_ADDRESS ++ "."

def zero_lp_msg (addr : String) : String :=
  "LP balance is zero for address " ++ addr ++ "; please select another LP holder."

def burn_zero_msg : String :=
  "Computed burn amount is zero; LP position may be too small for the requested --burn-bps."

def estimate_zero_msg : String :=
  "calc_withdraw_one_coin suggests 0 output; burn amount may be too small or pool is imbalanced."

def tx_fail_msg : String :=
  "Transaction failed (status 0)."

/-! ### Withdrawal sizing (`calc_burn_amount`, `estimate_usdc`, line 268) -/

/-- `calc_burn_amount(lp_balance, burn_bps)`:
`burn_amount = lp_balance * burn_bps // config.MAX_BURN_BPS`, and
`sys.exit` when the result is zero. -/
def calc_burn_amount (lp_balance burn_bps : Nat) : Except String Nat :=
  let burn_amount := lp_balance * burn_bps / MAX_BURN_BPS
  if burn_amount = 0 then .error burn_zero_msg else .ok burn_amount

/-- `estimate_usdc(pool, burn_amount, usdc_index)`: the pool's
`calc_withdraw_one_coin` is the oracle `calc_withdraw`; `sys.exit` when the
estimate is zero. -/
def estimate_usdc (calc_withdraw : Nat → Nat → Nat) (burn_amount usdc_index : Nat) :
    Except String Nat :=
  let expected := calc_withdraw burn_amount usdc_index
  if expected = 0 then .error estimate_zero_msg else .ok expected

/-- Line 268 of `main`: `min_received = expected_usdc * config.SLIPPAGE_BPS // 100`. -/
def min_received_calc (expected_usdc : Nat) : Nat :=
  expected_usdc * SLIPPAGE_BPS / 100

/-! ### Asset-index resolution (`get_usdc_index`) -/

/-- The `for i in range(config.MAX_COINS_CHECK)` loop of `get_usdc_index`,
with `fuel` iterations left and `i` the current position.  `coins i = none`
models the `BadFunctionCallOutput`/`ContractLogicError` branch (`break`);
falling off the loop is the final `sys.exit`. -/
def usdc_index_loop (cs : String → String) (coins : Nat → Option String)
    (target : String) : Nat → Nat → Except String Nat
  | 0, _ => .error coins_not_found_msg
  | fuel + 1, i =>
    match coins i with
    | none => .error coins_not_found_msg
    | some a =>
      if cs a = cs target then .ok i
      else usdc_index_loop cs coins target fuel (i + 1)

/-- `get_usdc_index(pool, usdc_address)`: probe `coins(0) .. coins(3)`,
comparing checksum-normalized addresses (`cs` models
`Web3.to_checksum_address`), and exit if no match is found. -/
def get_usdc_index (cs : String → String) (coins : Nat → Option String)
    (target : String) : Except String Nat :=
  usdc_index_loop cs coins target MAX_COINS_CHECK 0

/-- Read the coin list of a pool given as a plain list: positions past the
end fail (the contract call reverts there). -/
def coins_of_list : List String → Nat → Option String
  | [], _ => none
  | a :: _, 0 => some a
  | _ :: l, n + 1 => coins_of_list l n

/-! ### Argument parsing (`parse_args`) -/

/-- The inputs `parse_args` consumes: each flag's value (when given on the
command line) and each environment variable's value.  `flag_burn`/`env_burn`
hold the integer value after Python's `int(...)` conversion. -/
structure ParseInput where
  flag_rpc : Option String
  env_rpc : Option String
  flag_impersonated : Option String
  env_impersonated : Option String
  flag_burn : Option Int
  env_burn : Option Int
  flag_dry_run : Bool
deriving Repr, DecidableEq

/-- The `argparse.Namespace` that `parse_args` returns. -/
structure Args where
  rpc_url : String
  impersonated_address : String
  burn_bps : Int
  dry_run : Bool
deriving Repr, DecidableEq

/-- `--rpc-url` default: `env.get(ENV_RPC_URL, DEFAULT_RPC_URL)`. -/
def resolved_rpc (p : ParseInput) : String :=
  p.flag_rpc.getD (p.env_rpc.getD DEFAULT_RPC_URL)

/-- `--impersonated-address` default: `env.get(ENV_IMPERSONATED_ADDRESS)`;
`""` stands for the falsy values (`None` or the empty string) rejected by
`if not args.impersonated_address`. -/
def resolved_impersonated (p : ParseInput) : String :=
  ((p.flag_impersonated).orElse fun _ => p.env_impersonated).getD ""

/-- `--burn-bps` default: `int(env.get(ENV_BURN_BPS, 100))`. -/
def resolved_bps (p : ParseInput) : Int :=
  p.flag_burn.getD (p.env_burn.getD 100)

/-- `parse_args`: resolve each flag against its environment default, then
`parser.error` (modelled as `Except.error`, a non-zero exit) on a missing
impersonated address or a `--burn-bps` outside
`[MIN_BURN_BPS, MAX_BURN_BPS]`. -/
def parse_args (p : ParseInput) : Except String Args :=
  if resolved_impersonated p = "" then .error missing_address_msg
  else if ¬ ((MIN_BURN_BPS : Int) ≤ resolved_bps p ∧
      resolved_bps p ≤ (MAX_BURN_BPS : Int)) then
    .error bps_range_msg
  else
    .ok ⟨resolved_rpc p, resolved_impersonated p, resolved_bps p, p.flag_dry_run⟩

/-! ### The chain model and `main` -/

/-- `Balances` (the `@dataclass` of the script). -/
structure Balances where
  lp_balance : Nat
  usdc_balance : Nat
  lp_decimals : Nat
  usdc_decimals : Nat
  usdc_symbol : String
deriving Repr, DecidableEq

/-- The remote state `main` interacts with: the holder's balances, decimal
metadata, and the pool/token contract entry points as oracle functions.
`coins i = none` models a failing `coins(i)` read; `withdraw_out b i m =
none` models a mined transaction whose receipt status is not 1. -/
structure Chain where
  lp_balance : Nat
  usdc_balance : Nat
  lp_decimals : Nat
  usdc_decimals : Nat
  usdc_symbol : String
  eth_wei : Nat
  connected : Bool
  has_accounts : Bool
  impersonate_ok : Bool
  valid_addr : String → Bool
  checksum : String → String
  coins : Nat → Option String
  calc_withdraw : Nat → Nat → Nat
  withdraw_out : Nat → Nat → Nat → Option Nat

/-- `to_checksum(w3, address)`: checksum-normalize, `sys.exit` on a
malformed address. -/
def to_checksum (c : Chain) (a : String) : Except String String :=
  if c.valid_addr a then .ok (c.checksum a) else .error (invalid_addr_msg a)

/-- `read_balances(pool, usdc, address)`: the five read-only queries
combined into one `Balances`. -/
def read_balances (c : Chain) : Balances :=
  ⟨c.lp_balance, c.usdc_balance, c.lp_decimals, c.usdc_decimals, c.usdc_symbol⟩

/-- The amount `impersonate_and_fund` transfers: `to_wei(0.1, "ether")`. -/
def FUND_WEI : Nat := 100000000000000000

/-- The observable operations `main` performs, in order, used to state
*before*-style properties (an event is appended when the corresponding call
is attempted). -/
inductive Event where
  | connect
  | impersonate
  | fund
  | readBalances
  | sizing
  | estimate
  | minRecv
  | dryRunReport
  | withdrawTx (burn_amount usdc_index min_received : Nat)
  | resultReport
deriving Repr, DecidableEq

/-- `main(argv)`, from `parse_args` to the final report, over a `Chain`:
returns the process outcome (`.error` = the `sys.exit` message), the final
chain state, and the trace of operations performed.  Mirrors the source
order: parse, connect, checksum the three addresses, check local accounts,
impersonate and fund, resolve the USDC index, snapshot balances, guard the
zero LP balance, size the burn, estimate, compute the minimum received,
then either dry-run report or transact and report. -/
def main_flow (p : ParseInput) (c : Chain) :
    Except String Unit × Chain × List Event :=
  match parse_args p with
  | .error e => (.error e, c, [])
  | .ok args =>
    if ¬ c.connected then
      (.error (connect_fail_msg args.rpc_url), c, [Event.connect])
    else
      match to_checksum c args.impersonated_address with
      | .error e => (.error e, c, [Event.connect])
      | .ok imp =>
      match to_checksum c POOL_ADDRESS with
      | .error e => (.error e, c, [Event.connect])
      | .ok _pool_ck =>
      match to_checksum c USDC_ADDRESS with
      | .error e => (.error e, c, [Event.connect])
      | .ok usdc_ck =>
      if ¬ c.has_accounts then (.error no_accounts_msg, c, [Event.connect])
      else if ¬ c.impersonate_ok then
        (.error impersonation_err_msg, c, [Event.connect, Event.impersonate])
      else
        let c1 : Chain := { c with eth_wei := c.eth_wei + FUND_WEI }
        let tr1 := [Event.connect, Event.impersonate, Event.fund]
        match get_usdc_index c.checksum c.coins usdc_ck with
        | .error e => (.error e, c1, tr1)
        | .ok usdc_index =>
          let balances_before := read_balances c1
          let tr2 := tr1 ++ [Event.readBalances]
          if balances_before.lp_balance = 0 then
            (.error (zero_lp_msg imp), c1, tr2)
          else
            let tr3 := tr2 ++ [Event.sizing]
            match calc_burn_amount balances_before.lp_balance args.burn_bps.toNat with
            | .error e => (.error e, c1, tr3)
            | .ok burn_amount =>
              let tr4 := tr3 ++ [Event.estimate]
              match estimate_usdc c.calc_withdraw burn_amount usdc_index with
              | .error e => (.error e, c1, tr4)
              | .ok expected_usdc =>
                let min_received := min_received_calc expected_usdc
                let tr5 := tr4 ++ [Event.minRecv]
                if args.dry_run then
                  (.ok (), c1, tr5 ++ [Event.dryRunReport])
                else
                  let tr6 := tr5 ++ [Event.withdrawTx burn_amount usdc_index min_received]
                  match c.withdraw_out burn_amount usdc_index min_received with
                  | none => (.error tx_fail_msg, c1, tr6)
                  | some out =>
                    let c2 : Chain :=
                      { c1 with
                        lp_balance := c1.lp_balance - burn_amount,
                        usdc_balance := c1.usdc_balance + out }
                    (.ok (), c2, tr6 ++ [Event.resultReport])

/-- `True` exactly on `Except.ok`: the process exited with code 0. -/
def run_ok : Except String Unit → Bool
  | .ok _ => true
  | .error _ => false

/-! ### The withdrawal plan (spec §3), built by lines 266–268 of `main` -/

/-- `WithdrawalPlan`: the values `main` derives before executing or
reporting. -/
structure WithdrawalPlan where
  burn_amount : Nat
  usdc_index : Nat
  expected_output : Nat
  min_received : Nat
deriving Repr, DecidableEq

/-- Lines 266–268 of `main`: size the burn, estimate the output, apply the
slippage buffer. -/
def build_plan (lp_balance burn_bps : Nat) (calc_withdraw : Nat → Nat → Nat)
    (usdc_index : Nat) : Except String WithdrawalPlan :=
  match calc_burn_amount lp_balance burn_bps with
  | .error e => .error e
  | .ok burn_amount =>
    match estimate_usdc calc_withdraw burn_amount usdc_index with
    | .error e => .error e
    | .ok expected_usdc =>
      .ok ⟨burn_amount, usdc_index, expected_usdc, min_received_calc expected_usdc⟩

/-! ### Helper lemmas -/

/-- `calc_burn_amount` succeeds exactly with the nonzero floor. -/
theorem calc_burn_amount_ok_iff (sb bps v : Nat) :
    calc_burn_amount sb bps = .ok v ↔ v = sb * bps / 10000 ∧ v ≠ 0 := by
  unfold calc_burn_amount MAX_BURN_BPS
  by_cases h : sb * bps / 10000 = 0 <;> simp [h, eq_comm] <;> omega

/-- `estimate_usdc` succeeds exactly with the nonzero oracle value. -/
theorem estimate_usdc_ok_iff (f : Nat → Nat → Nat) (b i v : Nat) :
    estimate_usdc f b i = .ok v ↔ v = f b i ∧ v ≠ 0 := by
  unfold estimate_usdc
  by_cases h : f b i = 0 <;> simp [h, eq_comm] <;> omega

/-- The slippage buffer never exceeds its input. -/
theorem min_received_le (e : Nat) : min_received_calc e ≤ e := by
  unfold min_received_calc SLIPPAGE_BPS
  calc e * 99 / 100 ≤ e * 100 / 100 :=
        Nat.div_le_div_right (Nat.mul_le_mul le_rfl (by norm_num))
    _ = e := Nat.mul_div_cancel e (by norm_num)

end CurveWithdraw

namespace CurveWithdraw

/-! ### Claims -/

/-- C1 (counterexample): at `shareBalance = 50`, `burnBps = 1` — inputs
allowed by the claim — `calc_burn_amount` does not return the floor
`50 * 1 // 10000 = 0`; it exits with the sizing error instead. -/
theorem calc_burn_amount_not_floor_at_50_1 :
    calc_burn_amount 50 1 ≠ .ok (50 * 1 / 10000) ∧
    calc_burn_amount 50 1 = .error burn_zero_msg := by
  have h : calc_burn_amount 50 1 = .error burn_zero_msg := rfl
  exact ⟨by rw [h]; exact fun hc => Except.noConfusion hc, h⟩

/-- C1 (amended): for `shareBalance > 0` and `1 ≤ burnBps ≤ burnBps' ≤
10000`, whenever the floor `shareBalance * burnBps // 10000` is nonzero,
`calc_burn_amount` returns exactly that floor (computed with integer
arithmetic), and the returned amounts are monotonically non-decreasing in
`burnBps` for fixed `shareBalance`. -/
theorem calc_burn_amount_floor_mono (sb bps bps' : Nat) (hsb : 0 < sb)
    (h1 : 1 ≤ bps) (h2 : bps ≤ 10000) (h1' : 1 ≤ bps') (h2' : bps' ≤ 10000)
    (hle : bps ≤ bps') (hnz : sb * bps / 10000 ≠ 0) :
    calc_burn_amount sb bps = .ok (sb * bps / 10000) ∧
    calc_burn_amount sb bps' = .ok (sb * bps' / 10000) ∧
    sb * bps / 10000 ≤ sb * bps' / 10000 := by
  have hmono : sb * bps / 10000 ≤ sb * bps' / 10000 :=
    Nat.div_le_div_right (Nat.mul_le_mul le_rfl hle)
  have hnz' : sb * bps' / 10000 ≠ 0 := by omega
  exact ⟨(calc_burn_amount_ok_iff sb bps _).2 ⟨rfl, hnz⟩,
    (calc_burn_amount_ok_iff sb bps' _).2 ⟨rfl, hnz'⟩, hmono⟩

/-- C1 (witness): `shareBalance = 1000000`, `burnBps = 100`, `burnBps' =
200`. -/
theorem calc_burn_amount_floor_mono_witness :
    calc_burn_amount 1000000 100 = .ok (1000000 * 100 / 10000) ∧
    calc_burn_amount 1000000 200 = .ok (1000000 * 200 / 10000) ∧
    1000000 * 100 / 10000 ≤ 1000000 * 200 / 10000 :=
  calc_burn_amount_floor_mono 1000000 100 200 (by decide) (by decide)
    (by decide) (by decide) (by decide) (by decide) (by decide)

/-- C2: the minimum-received computation is
`expectedOutput * 99 // 100` (multiply first, then truncating integer
division by 100), and `1000000` yields `990000`. -/
theorem min_received_formula (e : Nat) :
    min_received_calc e = e * 99 / 100 ∧ min_received_calc 1000000 = 990000 :=
  ⟨rfl, rfl⟩

/-- C3: whenever the floor `shareBalance * burnBps // 10000` is zero,
`calc_burn_amount` fails with the sizing error rather than returning
zero. -/
theorem calc_burn_amount_zero_fails (sb bps : Nat) (h : sb * bps / 10000 = 0) :
    calc_burn_amount sb bps = .error burn_zero_msg := by
  unfold calc_burn_amount MAX_BURN_BPS
  simp [h]

/-- C3 (witness): `shareBalance = 50`, `burnBps = 1`. -/
theorem calc_burn_amount_zero_fails_witness :
    50 * 1 / 10000 = 0 ∧ calc_burn_amount 50 1 = .error burn_zero_msg :=
  ⟨by decide, calc_burn_amount_zero_fails 50 1 (by decide)⟩

/-- C4: every successfully constructed withdrawal plan satisfies
`0 < burnAmount ≤ shareBalance` and `minReceived ≤ expectedOutput`. -/
theorem withdrawal_plan_invariants (sb bps usdc_index : Nat)
    (f : Nat → Nat → Nat) (plan : WithdrawalPlan) (hsb : 0 < sb)
    (h1 : 1 ≤ bps) (h2 : bps ≤ 10000)
    (hok : build_plan sb bps f usdc_index = .ok plan) :
    0 < plan.burn_amount ∧ plan.burn_amount ≤ sb ∧
    plan.min_received ≤ plan.expected_output := by
  cases hb : calc_burn_amount sb bps with
  | error e => simp [build_plan, hb] at hok
  | ok burn =>
    cases he : estimate_usdc f burn usdc_index with
    | error e => simp [build_plan, hb, he] at hok
    | ok expected =>
      simp only [build_plan, hb, he, Except.ok.injEq] at hok
      obtain ⟨hb1, hb2⟩ := (calc_burn_amount_ok_iff sb bps burn).1 hb
      subst hok
      refine ⟨?_, ?_, ?_⟩
      · show 0 < burn
        omega
      · show burn ≤ sb
        have hmul : sb * bps ≤ sb * 10000 := Nat.mul_le_mul le_rfl h2
        have h10000 : sb * 10000 / 10000 = sb := Nat.mul_div_cancel sb (by norm_num)
        have hdiv : sb * bps / 10000 ≤ sb * 10000 / 10000 :=
          Nat.div_le_div_right hmul
        omega
      · show min_received_calc expected ≤ expected
        exact min_received_le expected

/-- The probing loop returns `k` exactly when `k` is within the remaining
fuel, the coin at `k` reads successfully and matches, and every earlier
probed position reads successfully and does not match. -/
theorem usdc_index_loop_spec (cs : String → String) (coins : Nat → Option String)
    (target : String) : ∀ fuel i k,
    (usdc_index_loop cs coins target fuel i = .ok k ↔
      (i ≤ k ∧ k < i + fuel ∧ (∃ a, coins k = some a ∧ cs a = cs target) ∧
       ∀ j, i ≤ j → j < k → ∃ b, coins j = some b ∧ cs b ≠ cs target)) := by
  intro fuel
  induction fuel with
  | zero =>
    intro i k
    simp only [usdc_index_loop]
    constructor
    · intro h
      exact Except.noConfusion h
    · rintro ⟨h1, h2, -, -⟩
      omega
  | succ n ih =>
    intro i k
    constructor
    · intro h
      unfold usdc_index_loop at h
      cases hc : coins i with
      | none =>
        rw [hc] at h
        exact Except.noConfusion h
      | some a =>
        rw [hc] at h
        dsimp only at h
        by_cases hm : cs a = cs target
        · rw [if_pos hm] at h
          have hik : i = k := by injection h
          subst hik
          exact ⟨le_rfl, by omega, ⟨a, hc, hm⟩, fun j hj1 hj2 => by omega⟩
        · rw [if_neg hm] at h
          obtain ⟨h1, h2, h3, h4⟩ := (ih (i + 1) k).1 h
          refine ⟨by omega, by omega, h3, fun j hj1 hj2 => ?_⟩
          by_cases hji : j = i
          · exact ⟨a, by rw [hji]; exact hc, hm⟩
          · exact h4 j (by omega) hj2
    · rintro ⟨h1, h2, h3, h4⟩
      unfold usdc_index_loop
      cases hc : coins i with
      | none =>
        exfalso
        rcases Nat.eq_or_lt_of_le h1 with heq | hlt
        · obtain ⟨a, ha, -⟩ := h3
          rw [← heq, hc] at ha
          exact Option.noConfusion ha
        · obtain ⟨b, hb, -⟩ := h4 i le_rfl hlt
          rw [hc] at hb
          exact Option.noConfusion hb
      | some a =>
        dsimp only
        by_cases hm : cs a = cs target
        · rw [if_pos hm]
          have hik : i = k := by
            by_contra hne
            have hlt : i < k := by omega
            obtain ⟨b, hb, hbn⟩ := h4 i le_rfl hlt
            rw [hc] at hb
            have hba : a = b := by injection hb
            exact hbn (hba ▸ hm)
          rw [hik]
        · rw [if_neg hm]
          apply (ih (i + 1) k).2
          have hik : i ≠ k := by
            intro heq
            obtain ⟨a', ha', hm'⟩ := h3
            rw [← heq, hc] at ha'
            have : a = a' := by injection ha'
            exact hm (this ▸ hm')
          exact ⟨by omega, by omega, h3, fun j hj1 hj2 => h4 j (by omega) hj2⟩

/-- C5: `get_usdc_index` probes positions `0..3` in order and returns `k`
exactly when the coin at `k` reads successfully, its checksum-normalized
address equals the normalized target, and every earlier position reads
successfully and does not match (so the first read failure or the bound
`MAX_COINS_CHECK = 4` ends the search and exits with the resolution error);
on the coin list `[TokenA, TokenB, USDC, TokenD]` with target `USDC` it
returns `2`, and on `[TokenA, TokenB]` it exits with the resolution error,
never a default index. -/
theorem get_usdc_index_resolution (cs : String → String)
    (coins : Nat → Option String) (target : String) (k : Nat) :
    (get_usdc_index cs coins target = .ok k ↔
      (k < MAX_COINS_CHECK ∧ (∃ a, coins k = some a ∧ cs a = cs target) ∧
       ∀ j, j < k → ∃ b, coins j = some b ∧ cs b ≠ cs target)) ∧
    get_usdc_index id (coins_of_list ["TokenA", "TokenB", "USDC", "TokenD"])
      "USDC" = .ok 2 ∧
    get_usdc_index id (coins_of_list ["TokenA", "TokenB"]) "USDC" =
      .error coins_not_found_msg := by
  refine ⟨?_, rfl, rfl⟩
  have h := usdc_index_loop_spec cs coins target MAX_COINS_CHECK 0 k
  unfold get_usdc_index
  rw [h]
  constructor
  · rintro ⟨-, h2, h3, h4⟩
    exact ⟨by omega, h3, fun j hj => h4 j (Nat.zero_le j) hj⟩
  · rintro ⟨h2, h3, h4⟩
    exact ⟨Nat.zero_le k, by omega, h3, fun j _ hj => h4 j hj⟩

/-- C4 (witness): `shareBalance = 1000000`, `burnBps = 100`, pool estimate
`9850`. -/
theorem withdrawal_plan_invariants_witness :
    0 < (⟨10000, 0, 9850, 9751⟩ : WithdrawalPlan).burn_amount ∧
    (⟨10000, 0, 9850, 9751⟩ : WithdrawalPlan).burn_amount ≤ 1000000 ∧
    (⟨10000, 0, 9850, 9751⟩ : WithdrawalPlan).min_received ≤
      (⟨10000, 0, 9850, 9751⟩ : WithdrawalPlan).expected_output :=
  withdrawal_plan_invariants 1000000 100 0 (fun _ _ => 9850)
    ⟨10000, 0, 9850, 9751⟩ (by decide) (by decide) (by decide) (by rfl)

/-- A successful parse carries the dry-run flag through unchanged. -/
theorem parse_args_dry_run (p : ParseInput) (a : Args)
    (h : parse_args p = .ok a) : a.dry_run = p.flag_dry_run := by
  unfold parse_args at h
  split at h
  · exact Except.noConfusion h
  · split at h
    · exact Except.noConfusion h
    · injection h with h'
      subst h'
      rfl

/-- Witness inputs: an invocation with only the impersonated address set. -/
def p_ok : ParseInput := ⟨none, none, some "0xHolder", none, none, none, false⟩

/-- Witness inputs: same as `p_ok` with the dry-run flag set. -/
def p_dry : ParseInput := ⟨none, none, some "0xHolder", none, none, none, true⟩

/-- Witness inputs: no flags and no environment variables at all. -/
def p_missing : ParseInput := ⟨none, none, none, none, none, none, false⟩

/-- A benign witness chain: a funded, reachable fork whose pool holds USDC
at coin position 0. -/
def sample_chain : Chain where
  lp_balance := 1000000
  usdc_balance := 5000
  lp_decimals := 18
  usdc_decimals := 6
  usdc_symbol := "USDC"
  eth_wei := 0
  connected := true
  has_accounts := true
  impersonate_ok := true
  valid_addr := fun _ => true
  checksum := id
  coins := coins_of_list [USDC_ADDRESS]
  calc_withdraw := fun b _ => b / 100
  withdraw_out := fun _ _ _ => some 9850

/-- `sample_chain` with a zero LP balance for the holder. -/
def zero_lp_chain : Chain := { sample_chain with lp_balance := 0 }

/-- `sample_chain` whose pool estimates an output of exactly 1 raw unit. -/
def tiny_estimate_chain : Chain := { sample_chain with calc_withdraw := fun _ _ => 1 }

/-- C6: whenever the holder's pre-withdrawal LP balance is zero, `main`
aborts with an error and no sizing computation (`calc_burn_amount`,
estimate, min-received) is ever attempted. -/
theorem zero_lp_aborts_before_sizing (p : ParseInput) (c : Chain)
    (h : c.lp_balance = 0) :
    run_ok (main_flow p c).1 = false ∧
    Event.sizing ∉ (main_flow p c).2.2 ∧
    Event.estimate ∉ (main_flow p c).2.2 ∧
    Event.minRecv ∉ (main_flow p c).2.2 := by
  cases hp : parse_args p with
  | error e => simp [main_flow, hp, run_ok]
  | ok args =>
    unfold main_flow
    rw [hp]
    repeat' (first | split | dsimp only)
    all_goals try exact ⟨rfl, by decide, by decide, by decide⟩
    all_goals exact absurd h (by assumption)

/-- C6 (witness): `p_ok` against `zero_lp_chain`. -/
theorem zero_lp_aborts_before_sizing_witness :
    zero_lp_chain.lp_balance = 0 ∧
    (run_ok (main_flow p_ok zero_lp_chain).1 = false ∧
     Event.sizing ∉ (main_flow p_ok zero_lp_chain).2.2 ∧
     Event.estimate ∉ (main_flow p_ok zero_lp_chain).2.2 ∧
     Event.minRecv ∉ (main_flow p_ok zero_lp_chain).2.2) :=
  ⟨rfl, zero_lp_aborts_before_sizing p_ok zero_lp_chain rfl⟩

/-- C7: a missing impersonated address or a burn-bps outside
`[MIN_BURN_BPS, MAX_BURN_BPS]` is a usage error: the run exits non-zero
with an empty trace — no network interaction and no transaction. -/
theorem usage_error_no_network (p : ParseInput) (c : Chain)
    (h : resolved_impersonated p = "" ∨
         resolved_bps p < (MIN_BURN_BPS : Int) ∨
         (MAX_BURN_BPS : Int) < resolved_bps p) :
    run_ok (main_flow p c).1 = false ∧ (main_flow p c).2.2 = [] := by
  have hp : ∃ e, parse_args p = .error e := by
    unfold parse_args
    by_cases himp : resolved_impersonated p = ""
    · exact ⟨_, by rw [if_pos himp]⟩
    · have hbad : ¬ ((MIN_BURN_BPS : Int) ≤ resolved_bps p ∧
          resolved_bps p ≤ (MAX_BURN_BPS : Int)) := by
        rcases h with h | h | h
        · exact absurd h himp
        · rintro ⟨h1, -⟩; omega
        · rintro ⟨-, h2⟩; omega
      exact ⟨_, by rw [if_neg himp, if_pos hbad]⟩
  obtain ⟨e, he⟩ := hp
  simp [main_flow, he, run_ok]

/-- C7 (witness): no address given anywhere. -/
theorem usage_error_no_network_witness :
    (resolved_impersonated p_missing = "" ∨
     resolved_bps p_missing < (MIN_BURN_BPS : Int) ∨
     (MAX_BURN_BPS : Int) < resolved_bps p_missing) ∧
    (run_ok (main_flow p_missing sample_chain).1 = false ∧
     (main_flow p_missing sample_chain).2.2 = []) :=
  ⟨Or.inl rfl, usage_error_no_network p_missing sample_chain (Or.inl rfl)⟩

/-- C8: with the dry-run flag set, the LP/USDC balance snapshot after the
run equals the snapshot before it — the dry-run path performs no
state-changing pool or token call. -/
theorem dry_run_preserves_balances (p : ParseInput) (c : Chain)
    (h : p.flag_dry_run = true) :
    read_balances (main_flow p c).2.1 = read_balances c := by
  cases hp : parse_args p with
  | error e => simp [main_flow, hp]
  | ok args =>
    have hdry : args.dry_run = true := (parse_args_dry_run p args hp).trans h
    unfold main_flow
    rw [hp]
    repeat' (first | dsimp only | split)
    all_goals first
      | rfl
      | exact absurd hdry (by assumption)

/-- C8 (witness): `p_dry` against `sample_chain`. -/
theorem dry_run_preserves_balances_witness :
    p_dry.flag_dry_run = true ∧
    read_balances (main_flow p_dry sample_chain).2.1 =
      read_balances sample_chain :=
  ⟨rfl, dry_run_preserves_balances p_dry sample_chain rfl⟩

/-- C9: with neither the `--burn-bps` flag nor the `BURN_BPS` environment
variable set, argument parsing resolves `burn_bps = 100`, which lies inside
`[MIN_BURN_BPS, MAX_BURN_BPS]`, and a parse with a present address
succeeds with that value. -/
theorem default_burn_bps_is_100 (p : ParseInput) (hf : p.flag_burn = none)
    (he : p.env_burn = none) (himp : resolved_impersonated p ≠ "") :
    resolved_bps p = 100 ∧
    parse_args p =
      .ok ⟨resolved_rpc p, resolved_impersonated p, 100, p.flag_dry_run⟩ ∧
    (MIN_BURN_BPS : Int) ≤ 100 ∧ (100 : Int) ≤ (MAX_BURN_BPS : Int) := by
  have hbps : resolved_bps p = 100 := by simp [resolved_bps, hf, he]
  refine ⟨hbps, ?_, by norm_num [MIN_BURN_BPS], by norm_num [MAX_BURN_BPS]⟩
  unfold parse_args
  rw [if_neg himp, hbps]
  rw [if_neg (by norm_num [MIN_BURN_BPS, MAX_BURN_BPS])]

/-- C9 (witness): `p_ok` has no burn-bps flag and no `BURN_BPS`. -/
theorem default_burn_bps_is_100_witness :
    p_ok.flag_burn = none ∧ p_ok.env_burn = none ∧
    resolved_impersonated p_ok ≠ "" ∧
    (resolved_bps p_ok = 100 ∧
     parse_args p_ok =
       .ok ⟨resolved_rpc p_ok, resolved_impersonated p_ok, 100,
         p_ok.flag_dry_run⟩ ∧
     (MIN_BURN_BPS : Int) ≤ 100 ∧ (100 : Int) ≤ (MAX_BURN_BPS : Int)) :=
  ⟨rfl, rfl, by decide,
    default_burn_bps_is_100 p_ok rfl rfl (by decide)⟩

/-- C10: with a strictly positive pool estimate of `1`, the computed
minimum received is `1 * 99 // 100 = 0`, no guard rejects it, and the
withdrawal transaction is submitted with `min_received = 0` and the run
succeeds. -/
theorem min_received_zero_submitted :
    min_received_calc 1 = 0 ∧
    run_ok (main_flow p_ok tiny_estimate_chain).1 = true ∧
    Event.withdrawTx 10000 0 0 ∈ (main_flow p_ok tiny_estimate_chain).2.2 := by
  refine ⟨rfl, ?_, ?_⟩ <;> decide

end CurveWithdraw
